import Mathlib

/-!
Verification of the bilingual content-resolution logic of a static blog:
the translation resolver (`getTranslationSlug`), slug and URL derivation
(`getPostSlug`, `getPostUrl`), published-post listing (`getPublishedPosts`)
and the i18n path helpers (`getLangFromUrl`, `getLocalizedPath`).

The embedding follows `src/lib/posts.ts` and `src/i18n/index.ts`.
Strings are modelled by Lean `String`; the JavaScript
`replace(/\.md$/, "")` is modelled by `stripMd`, `startsWith` by
`strStartsWith` over code points, and the stable `Array.prototype.sort`
by `List.mergeSort` (stable merge sort).
-/

namespace Blog

/-- The two supported languages, from `src/i18n/index.ts`
(`export type Lang = "pt" | "en"`). -/
inductive Lang where
  | pt : Lang
  | en : Lang
deriving DecidableEq, Repr

/-- Front-matter data of a post entry, restricted to the fields the
resolver and the listing read: `slug?`, `translationId?`, `draft`, and
`pubDate` (modelled by its `valueOf()` as an integer). -/
structure PostData where
  slug : Option String
  translationId : Option String
  draft : Bool
  pubDate : Int
deriving DecidableEq, Repr

/-- A content-collection entry: a stable `id` plus parsed front matter. -/
structure Post where
  id : String
  data : PostData
deriving DecidableEq, Repr

/-- An immutable snapshot of the two content collections `blogPt` and
`blogEn` (from `src/content.config.ts`), in enumeration order. -/
structure ContentStore where
  blogPt : List Post
  blogEn : List Post
deriving DecidableEq, Repr

/-- Collection selection `targetLang === "en" ? "blogEn" : "blogPt"`. -/
def getCollectionFor (store : ContentStore) (lang : Lang) : List Post :=
  match lang with
  | Lang.en => store.blogEn
  | Lang.pt => store.blogPt

/-- Model of the JavaScript `s.replace(/\.md$/, "")`: if the last three
code points are `.md`, drop them, otherwise return the string unchanged. -/
def stripMd (s : String) : String :=
  if [ '.', 'm', 'd'].isSuffixOf s.data then String.mk (s.data.take (s.data.length - 3)) else s

/-- Model of the JavaScript `s.startsWith(pre)` over code points. -/
def strStartsWith (s pre : String) : Bool :=
  pre.data.isPrefixOf s.data

/-- Model of the JavaScript `s.slice(n)` for a nonnegative count. -/
def strDrop (s : String) (n : Nat) : String :=
  String.mk (s.data.drop n)

/-- `getPostSlug` from `src/lib/posts.ts`:
`post.data.slug || post.id.replace(/\.md$/, "")`; note that the JavaScript
`||` treats an empty custom slug as absent. -/
def getPostSlug (post : Post) : String :=
  match post.data.slug with
  | some s => if s = "" then stripMd post.id else s
  | none => stripMd post.id

/-- `getPostUrl` from `src/lib/posts.ts`:
`` lang === "en" ? `/en/${slug}` : `/${slug}` ``. -/
def getPostUrl (post : Post) (lang : Lang) : String :=
  match lang with
  | Lang.en => "/en/" ++ getPostSlug post
  | Lang.pt => "/" ++ getPostSlug post

/-- The candidate predicate inside `getTranslationSlug`
(`src/lib/posts.ts`, lines 36-47): the candidate's raw `translationId`
equals the normalized source id, or the candidate's normalized id equals
the normalized source translationId, or the candidate's normalized id
equals the normalized source id. -/
def translationMatch (normalizedId : String) (normalizedTranslationId : Option String)
    (post : Post) : Bool :=
  post.data.translationId == some normalizedId
    || some (stripMd post.id) == normalizedTranslationId
    || stripMd post.id == normalizedId

/-- `getTranslationSlug` from `src/lib/posts.ts`: search the target
language's collection for the first entry satisfying `translationMatch`
and return its id with a trailing `.md` removed, or `null` (here `none`). -/
def getTranslationSlug (store : ContentStore) (currentId : String) (targetLang : Lang)
    (currentTranslationId : Option String) : Option String :=
  match (getCollectionFor store targetLang).find?
      (translationMatch (stripMd currentId) (Option.map stripMd currentTranslationId)) with
  | some translatedPost => some (stripMd translatedPost.id)
  | none => none

/-- The sort comparator of `getPublishedPosts`
(`(a, b) => b.data.pubDate.valueOf() - a.data.pubDate.valueOf()`) as the
"comes no later than" relation of a stable sort: `a` may stay before `b`
exactly when `b.pubDate ≤ a.pubDate`. -/
def pubDateDesc (a b : Post) : Bool :=
  decide (b.data.pubDate ≤ a.data.pubDate)

/-- `getPublishedPosts` from `src/lib/posts.ts`: load the language's
collection keeping only non-draft entries, then sort by `pubDate`
descending (stable sort, as `Array.prototype.sort` is). -/
def getPublishedPosts (store : ContentStore) (lang : Lang) : List Post :=
  ((getCollectionFor store lang).filter (fun p => !p.data.draft)).mergeSort pubDateDesc

/-- `getLocalizedPath`, first step: remove a leading slash
(`path.startsWith("/") ? path.slice(1) : path`). -/
def stripLeadingSlash (path : String) : String :=
  if strStartsWith path "/" then strDrop path 1 else path

/-- `getLocalizedPath` from `src/i18n/index.ts`: strip a leading slash;
for English prefix with `/en/` (plain `/en` for the empty path, since the
empty string is falsy in JavaScript); Portuguese is the default, no prefix. -/
def getLocalizedPath (path : String) (lang : Lang) : String :=
  match lang with
  | Lang.en =>
      if stripLeadingSlash path = "" then "/en" else "/en/" ++ stripLeadingSlash path
  | Lang.pt => "/" ++ stripLeadingSlash path

/-- `getLangFromUrl` from `src/i18n/index.ts`, applied to the URL's
pathname: English iff the pathname starts with `/en/` or is exactly `/en`. -/
def getLangFromUrl (pathname : String) : Lang :=
  if strStartsWith pathname "/en/" || pathname == "/en" then Lang.en else Lang.pt

/-- The three matching rules exactly as the specification words them
(spec section 4.1), as a proposition over the raw inputs: (1) the
candidate's `translationId` equals the normalized source id, (2) the
candidate's normalized id equals the normalized source `translationId`,
(3) the candidate's normalized id equals the normalized source id. -/
def specTranslationRule (source_id : String) (source_translation_id : Option String)
    (e : Post) : Prop :=
  e.data.translationId = some (stripMd source_id)
    ∨ some (stripMd e.id) = Option.map stripMd source_translation_id
    ∨ stripMd e.id = stripMd source_id

instance (source_id : String) (source_translation_id : Option String) (e : Post) :
    Decidable (specTranslationRule source_id source_translation_id e) := by
  unfold specTranslationRule
  infer_instance

/-- Overriding every entry's draft flag (by an arbitrary function of the
entry's id), used to state that the resolver ignores draft status. -/
def setDraft (f : String → Bool) (p : Post) : Post :=
  { p with data := { p.data with draft := f p.id } }

/-- `setDraft` applied across a whole content snapshot. -/
def setDrafts (f : String → Bool) (store : ContentStore) : ContentStore :=
  { blogPt := store.blogPt.map (setDraft f), blogEn := store.blogEn.map (setDraft f) }

/-! Demonstration snapshots used by concrete scenarios. -/

/-- The Portuguese `getting-started` entry of the spec's concrete scenario. -/
def gettingStartedPt : Post := ⟨"getting-started", ⟨none, none, false, 0⟩⟩

/-- The English `getting-started` entry of the spec's concrete scenario. -/
def gettingStartedEn : Post := ⟨"getting-started", ⟨none, none, false, 0⟩⟩

/-- Scenario snapshot: both collections hold `getting-started`, no
`translationId` on either. -/
def demoStore1 : ContentStore := ⟨[gettingStartedPt], [gettingStartedEn]⟩

/-- The renamed English entry `intro-to-astro` carrying
`translationId = "getting-started"`. -/
def introToAstroEn : Post := ⟨"intro-to-astro", ⟨none, some "getting-started", false, 0⟩⟩

/-- Scenario snapshot after renaming the English entry. -/
def demoStore2 : ContentStore := ⟨[gettingStartedPt], [introToAstroEn]⟩

/-! Helper lemmas. -/

theorem find?_congr_pred {α : Type} (p q : α → Bool) (h : ∀ a, p a = q a) :
    ∀ l : List α, l.find? p = l.find? q
  | [] => rfl
  | a :: l => by simp only [List.find?, h a, find?_congr_pred p q h l]

theorem stripMd_append (s : String) : stripMd (s ++ ".md") = s := by
  simp [stripMd, String.data_append]

theorem getTranslationSlug_eq_map (store : ContentStore) (cid : String) (lang : Lang)
    (ctid : Option String) :
    getTranslationSlug store cid lang ctid =
      ((getCollectionFor store lang).find?
          (translationMatch (stripMd cid) (Option.map stripMd ctid))).map
        (fun p => stripMd p.id) := by
  cases h : (getCollectionFor store lang).find?
      (translationMatch (stripMd cid) (Option.map stripMd ctid)) <;>
    simp [getTranslationSlug, h]

theorem translationMatch_eq_spec (cid : String) (ctid : Option String) (e : Post) :
    translationMatch (stripMd cid) (Option.map stripMd ctid) e =
      decide (specTranslationRule cid ctid e) := by
  rw [Bool.eq_iff_iff]
  simp [translationMatch, specTranslationRule, or_assoc]

/-! Claim theorems. -/

/-- C1: for every target-language collection snapshot, source id and
optional source translationId, `getTranslationSlug` returns the
normalized id of the first entry of the target collection satisfying the
spec's three matching rules (`specTranslationRule`), and in the concrete
scenarios: shared id `getting-started` resolves to itself (in either
direction), and a renamed English entry declaring
`translationId = "getting-started"` resolves to `intro-to-astro`. -/
theorem getTranslationSlug_matches_spec_rules (store : ContentStore) (lang : Lang)
    (cid : String) (ctid : Option String) :
    getTranslationSlug store cid lang ctid =
      ((getCollectionFor store lang).find?
          (fun e => decide (specTranslationRule cid ctid e))).map
        (fun e => stripMd e.id)
    ∧ getTranslationSlug demoStore1 "getting-started" Lang.en none = some "getting-started"
    ∧ getTranslationSlug demoStore1 "getting-started" Lang.pt none = some "getting-started"
    ∧ getTranslationSlug demoStore2 "getting-started" Lang.en none = some "intro-to-astro" := by
  refine ⟨?_, by decide, by decide, by decide⟩
  rw [getTranslationSlug_eq_map]
  rw [find?_congr_pred _ _ (translationMatch_eq_spec cid ctid)]

/-- C2: whenever `getTranslationSlug` finds a matching entry, its result
is the matched entry's id with a trailing `.md` removed, and never the
entry's custom front-matter slug when that slug differs from the
normalized id. -/
theorem getTranslationSlug_returns_normalized_id (store : ContentStore) (lang : Lang)
    (cid : String) (ctid : Option String) (e : Post)
    (h : (getCollectionFor store lang).find?
        (translationMatch (stripMd cid) (Option.map stripMd ctid)) = some e) :
    getTranslationSlug store cid lang ctid = some (stripMd e.id)
    ∧ ∀ s, e.data.slug = some s → s ≠ stripMd e.id →
        getTranslationSlug store cid lang ctid ≠ some s := by
  have h1 : getTranslationSlug store cid lang ctid = some (stripMd e.id) := by
    rw [getTranslationSlug_eq_map, h]
    rfl
  refine ⟨h1, ?_⟩
  intro s _ hne hcontra
  rw [h1] at hcontra
  exact hne (Option.some.inj hcontra).symm

/-- The English entry with a custom slug differing from its id, used to
witness C2. -/
def customSlugPost : Post := ⟨"a.md", ⟨some "custom", none, false, 0⟩⟩

/-- A snapshot whose English collection holds only `customSlugPost`. -/
def customSlugStore : ContentStore := ⟨[], [customSlugPost]⟩

/-- Witness for C2 at a concrete snapshot: the entry with id `a.md` and
custom slug `custom` resolves to `a`, never to `custom`. -/
theorem getTranslationSlug_returns_normalized_id_witness :
    getTranslationSlug customSlugStore "a" Lang.en none = some (stripMd customSlugPost.id)
    ∧ ∀ s, customSlugPost.data.slug = some s → s ≠ stripMd customSlugPost.id →
        getTranslationSlug customSlugStore "a" Lang.en none ≠ some s :=
  getTranslationSlug_returns_normalized_id customSlugStore Lang.en "a" none customSlugPost
    (by decide)

/-- A snapshot whose English collection holds a single draft entry. -/
def draftOnlyStore : ContentStore := ⟨[], [⟨"a", ⟨none, none, true, 0⟩⟩]⟩

/-- C3 counterexample: in a snapshot whose only matching target entry is
a draft, `getTranslationSlug` still returns that entry instead of the
`none` the claim demands. -/
theorem getTranslationSlug_draft_counterexample :
    (draftOnlyStore.blogEn.all fun e => e.data.draft) = true
    ∧ getTranslationSlug draftOnlyStore "a" Lang.en none = some "a"
    ∧ getTranslationSlug draftOnlyStore "a" Lang.en none ≠ none := by
  decide

/-- C3 amended: `getTranslationSlug` does not exclude drafts at all — its
result is invariant under arbitrary reassignment of every entry's draft
flag, so a draft entry can be returned as the resolved translation
target; draft exclusion is enforced only by the listing
(`getPublishedPosts`). -/
theorem getTranslationSlug_ignores_draft (f : String → Bool) (store : ContentStore)
    (cid : String) (lang : Lang) (ctid : Option String) :
    getTranslationSlug (setDrafts f store) cid lang ctid =
      getTranslationSlug store cid lang ctid := by
  rw [getTranslationSlug_eq_map, getTranslationSlug_eq_map]
  have hcoll : getCollectionFor (setDrafts f store) lang =
      (getCollectionFor store lang).map (setDraft f) := by
    cases lang <;> rfl
  rw [hcoll]
  induction getCollectionFor store lang with
  | nil => rfl
  | cons a l ih =>
      have hm : translationMatch (stripMd cid) (Option.map stripMd ctid) (setDraft f a) =
          translationMatch (stripMd cid) (Option.map stripMd ctid) a := rfl
      cases h : translationMatch (stripMd cid) (Option.map stripMd ctid) a
      · simpa [List.find?, hm, h] using ih
      · simp [List.find?, hm, h]
        rfl

/-- A snapshot whose English entry carries the raw translationId `x.md`. -/
def rawTidStoreMd : ContentStore := ⟨[], [⟨"a", ⟨none, some "x.md", false, 0⟩⟩]⟩

/-- The same snapshot with the translationId written without the suffix. -/
def rawTidStorePlain : ContentStore := ⟨[], [⟨"a", ⟨none, some "x", false, 0⟩⟩]⟩

/-- C4 counterexample: the candidate entry's `translationId` field is
compared raw, so writing it as `x.md` instead of `x` flips the result of
resolving source id `x`: normalization is not applied to the candidate's
`translationId` side. -/
theorem translationId_suffix_counterexample :
    getTranslationSlug rawTidStoreMd "x" Lang.en none = none
    ∧ getTranslationSlug rawTidStorePlain "x" Lang.en none = some "a" := by
  decide

/-- C4 amended: `getTranslationSlug` depends on the source id and the
source translationId only through their `.md`-stripped forms (so a
trailing `.md` on either input is immaterial), and a candidate whose id
lacks the suffix matches and resolves identically after appending `.md`
to its id — but the candidate entry's `translationId` field is compared
raw, without normalization. -/
theorem getTranslationSlug_normalization_invariance (store : ContentStore) (lang : Lang)
    (cid cid' : String) (ctid ctid' : Option String) (e : Post)
    (h1 : stripMd cid = stripMd cid')
    (h2 : Option.map stripMd ctid = Option.map stripMd ctid')
    (h3 : stripMd e.id = e.id) :
    getTranslationSlug store cid lang ctid = getTranslationSlug store cid' lang ctid'
    ∧ translationMatch (stripMd cid) (Option.map stripMd ctid) ⟨e.id ++ ".md", e.data⟩ =
        translationMatch (stripMd cid) (Option.map stripMd ctid) e
    ∧ stripMd (e.id ++ ".md") = stripMd e.id := by
  refine ⟨?_, ?_, ?_⟩
  · rw [getTranslationSlug_eq_map, getTranslationSlug_eq_map, h1, h2]
  · simp [translationMatch, stripMd_append, h3]
  · rw [stripMd_append, h3]

/-- An English entry without the `.md` suffix on its id, for the C4 witness. -/
def plainPost : Post := ⟨"z", ⟨none, none, false, 0⟩⟩

/-- A snapshot whose English collection holds only `plainPost`. -/
def suffixStore : ContentStore := ⟨[], [plainPost]⟩

/-- Witness for C4 amended at concrete inputs `x.md`/`x` and `y.md`/`y`. -/
theorem getTranslationSlug_normalization_invariance_witness :
    getTranslationSlug suffixStore "x.md" Lang.en (some "y.md") =
      getTranslationSlug suffixStore "x" Lang.en (some "y")
    ∧ translationMatch (stripMd "x.md") (Option.map stripMd (some "y.md"))
          ⟨plainPost.id ++ ".md", plainPost.data⟩ =
        translationMatch (stripMd "x.md") (Option.map stripMd (some "y.md")) plainPost
    ∧ stripMd (plainPost.id ++ ".md") = stripMd plainPost.id :=
  getTranslationSlug_normalization_invariance suffixStore Lang.en "x.md" "x"
    (some "y.md") (some "y") plainPost (by decide) (by decide) (by decide)

/-- C5: `getTranslationSlug` is total — its result is always either a
string or `none`, never an error — and it is `none` exactly when no entry
of the target collection satisfies any of the three matching rules. -/
theorem getTranslationSlug_total_none_iff_no_match (store : ContentStore) (cid : String)
    (lang : Lang) (ctid : Option String) :
    (getTranslationSlug store cid lang ctid = none
      ∨ ∃ s, getTranslationSlug store cid lang ctid = some s)
    ∧ (getTranslationSlug store cid lang ctid = none ↔
        ∀ e ∈ getCollectionFor store lang,
          translationMatch (stripMd cid) (Option.map stripMd ctid) e = false) := by
  constructor
  · cases h : getTranslationSlug store cid lang ctid
    · exact Or.inl rfl
    · exact Or.inr ⟨_, rfl⟩
  · rw [getTranslationSlug_eq_map]
    simp [List.find?_eq_none]

/-- A snapshot with a single English entry unrelated to the queried id. -/
def unrelatedStore : ContentStore := ⟨[], [⟨"other", ⟨none, none, false, 0⟩⟩]⟩

/-- Witness for C5: with no matching entry the result is exactly `none`. -/
theorem getTranslationSlug_total_none_iff_no_match_witness :
    getTranslationSlug unrelatedStore "x" Lang.en none = none :=
  (getTranslationSlug_total_none_iff_no_match unrelatedStore "x" Lang.en none).2.mpr
    (by decide)

/-- C6: `getPublishedPosts` returns exactly the entries of the language's
collection whose draft flag is false (as a permutation of the draft-free
filter, so no draft ever appears), ordered by `pubDate` descending. -/
theorem getPublishedPosts_filter_sorted (store : ContentStore) (lang : Lang) :
    (getPublishedPosts store lang).Perm
        ((getCollectionFor store lang).filter (fun p => !p.data.draft))
    ∧ (getPublishedPosts store lang).Pairwise
        (fun a b => b.data.pubDate ≤ a.data.pubDate)
    ∧ ((getPublishedPosts store lang).all fun p => !p.data.draft) = true := by
  have htrans : ∀ (a b c : Post), pubDateDesc a b → pubDateDesc b c → pubDateDesc a c := by
    intro a b c hab hbc
    simp only [pubDateDesc, decide_eq_true_eq] at hab hbc ⊢
    omega
  have htotal : ∀ (a b : Post), pubDateDesc a b || pubDateDesc b a := by
    intro a b
    simp only [pubDateDesc, Bool.or_eq_true, decide_eq_true_eq]
    omega
  refine ⟨List.mergeSort_perm _ _, ?_, ?_⟩
  · have h := List.sorted_mergeSort htrans htotal
      ((getCollectionFor store lang).filter (fun p => !p.data.draft))
    exact h.imp (by intro a b hab; simpa [pubDateDesc] using hab)
  · rw [List.all_eq_true]
    intro p hp
    simp only [getPublishedPosts] at hp
    have hmem : p ∈ (getCollectionFor store lang).filter (fun p => !p.data.draft) :=
      (List.mergeSort_perm _ pubDateDesc).mem_iff.mp hp
    exact (List.mem_filter.mp hmem).2

/-- A post whose custom slug starts with a slash, for the C7 counterexample. -/
def slashSlugPost : Post := ⟨"a", ⟨some "/b", none, false, 0⟩⟩

/-- C7 counterexample: for a post whose slug begins with `/`,
`getPostUrl` concatenates blindly (`//b`) while `getLocalizedPath` strips
the leading slash first (`/b`), so the claimed equivalence between the
two fails. -/
theorem getPostUrl_localizedPath_counterexample :
    getPostUrl slashSlugPost Lang.pt = "//b"
    ∧ getLocalizedPath (getPostSlug slashSlugPost) Lang.pt = "/b"
    ∧ getPostUrl slashSlugPost Lang.pt ≠ getLocalizedPath (getPostSlug slashSlugPost) Lang.pt := by
  decide

/-- C7 amended: the URL shape is unconditional — `/en/` followed by the
slug for English, `/` followed by the slug for Portuguese — and
`getPostUrl` agrees with `getLocalizedPath` on the slug whenever the slug
does not start with `/` and is nonempty. -/
theorem getPostUrl_shape (post : Post) (lang : Lang) :
    getPostUrl post Lang.en = "/en/" ++ getPostSlug post
    ∧ getPostUrl post Lang.pt = "/" ++ getPostSlug post
    ∧ (strStartsWith (getPostSlug post) "/" = false → getPostSlug post ≠ "" →
        getPostUrl post lang = getLocalizedPath (getPostSlug post) lang) := by
  refine ⟨rfl, rfl, ?_⟩
  intro h1 h2
  have hs : stripLeadingSlash (getPostSlug post) = getPostSlug post := by
    simp [stripLeadingSlash, h1]
  cases lang
  · simp [getPostUrl, getLocalizedPath, hs]
  · simp [getPostUrl, getLocalizedPath, hs, h2]

/-- A plain markdown post with no custom slug, used as a witness input. -/
def mdPost : Post := ⟨"hello.md", ⟨none, none, false, 0⟩⟩

/-- Witness for C7 amended: for the slug `hello` (no leading slash,
nonempty) the two URL constructions agree. -/
theorem getPostUrl_shape_witness :
    getPostUrl mdPost Lang.en = getLocalizedPath (getPostSlug mdPost) Lang.en :=
  (getPostUrl_shape mdPost Lang.en).2.2 (by decide) (by decide)

/-- C8: `getTranslationSlug` is deterministic over a fixed snapshot — two
calls with identical inputs against equal snapshots yield identical
outputs (it is a pure function of the snapshot and its arguments). -/
theorem getTranslationSlug_deterministic (store store' : ContentStore) (cid : String)
    (lang : Lang) (ctid : Option String) (h : store = store') :
    getTranslationSlug store cid lang ctid = getTranslationSlug store' cid lang ctid := by
  rw [h]

/-- Witness for C8 at the concrete scenario snapshot. -/
theorem getTranslationSlug_deterministic_witness :
    getTranslationSlug demoStore1 "getting-started" Lang.en none =
      getTranslationSlug demoStore1 "getting-started" Lang.en none :=
  getTranslationSlug_deterministic demoStore1 demoStore1 "getting-started" Lang.en none rfl

/-- A post whose custom slug is set but empty, for the C9 counterexample. -/
def emptySlugPost : Post := ⟨"a.md", ⟨some "", none, false, 0⟩⟩

/-- C9 counterexample: a custom slug that is set but empty is not
returned — the JavaScript `||` treats it as falsy and `getPostSlug` falls
back to the normalized id `a`. -/
theorem getPostSlug_empty_slug_counterexample :
    emptySlugPost.data.slug = some ""
    ∧ getPostSlug emptySlugPost = "a"
    ∧ getPostSlug emptySlugPost ≠ "" := by
  decide

/-- C9 amended: `getPostSlug` returns the custom slug when one is set and
nonempty (an empty custom slug is treated as absent); otherwise it
returns the id with a trailing `.md` stripped, and an id without the
`.md` suffix is returned as-is. -/
theorem getPostSlug_spec (post : Post) :
    (∀ s, post.data.slug = some s → s ≠ "" → getPostSlug post = s)
    ∧ (post.data.slug = none ∨ post.data.slug = some "" → getPostSlug post = stripMd post.id)
    ∧ (∀ x, post.data.slug = none → post.id = x ++ ".md" → getPostSlug post = x)
    ∧ (post.data.slug = none → stripMd post.id = post.id → getPostSlug post = post.id) := by
  refine ⟨?_, ?_, ?_, ?_⟩
  · intro s hs hne
    simp [getPostSlug, hs, hne]
  · intro h
    cases h with
    | inl h => simp [getPostSlug, h]
    | inr h => simp [getPostSlug, h]
  · intro x hnone hid
    simp [getPostSlug, hnone, hid, stripMd_append]
  · intro hnone hfix
    simp [getPostSlug, hnone, hfix]

/-- Witness for C9 amended: the post with id `hello.md` and no custom
slug has slug `hello`. -/
theorem getPostSlug_spec_witness :
    getPostSlug mdPost = "hello" :=
  (getPostSlug_spec mdPost).2.2.1 "hello" rfl (by decide)

/-! Path/language helper lemmas for C10. -/

theorem strStartsWith_en_append (c : String) : strStartsWith ("/en/" ++ c) "/en/" = true := by
  simp [strStartsWith, String.data_append, List.isPrefixOf_iff_prefix]

theorem strStartsWith_slash_en (c : String) :
    strStartsWith ("/" ++ c) "/en/" = strStartsWith c "en/" := by
  have h1 : ("/" ++ c).data = '/' :: c.data := by
    rw [String.data_append]
    rfl
  have e1 : ("/en/" : String).data = ['/', 'e', 'n', '/'] := rfl
  have e2 : ("en/" : String).data = ['e', 'n', '/'] := rfl
  rw [Bool.eq_iff_iff]
  simp [strStartsWith, h1, e1, e2, List.isPrefixOf_iff_prefix, List.cons_prefix_cons]

theorem slash_append_eq_en (c : String) : (("/" ++ c) = "/en") ↔ c = "en" := by
  constructor
  · intro h
    apply String.ext
    have h2 := congrArg String.data h
    rw [String.data_append] at h2
    have e3 : ("/" : String).data = ['/'] := rfl
    have e4 : ("/en" : String).data = ['/', 'e', 'n'] := rfl
    have e5 : ("en" : String).data = ['e', 'n'] := rfl
    rw [e3, e4] at h2
    rw [e5]
    simpa using h2
  · intro h
    rw [h]
    rfl

theorem getLangFromUrl_slash (c : String) :
    getLangFromUrl ("/" ++ c) =
      if strStartsWith c "en/" = true ∨ c = "en" then Lang.en else Lang.pt := by
  unfold getLangFromUrl
  rw [strStartsWith_slash_en]
  cases hb : strStartsWith c "en/" with
  | true => simp [hb]
  | false =>
      by_cases h2 : c = "en"
      · subst h2
        decide
      · have h3 : (("/" ++ c) == "/en") = false :=
          beq_eq_false_iff_ne.mpr (fun hc => h2 ((slash_append_eq_en c).mp hc))
        simp [h3, h2]

/-- C10: language detection round-trips with path localization
asymmetrically — localizing any path to English always detects English,
while localizing to the default language detects Portuguese exactly when
the path (after stripping a leading slash) is not `en` and does not start
with `en/`; for such `en`-shaped paths the default-language round trip
detects English instead. -/
theorem getLangFromUrl_roundtrip (path : String) :
    getLangFromUrl (getLocalizedPath path Lang.en) = Lang.en
    ∧ (stripLeadingSlash path ≠ "en" → strStartsWith (stripLeadingSlash path) "en/" = false →
        getLangFromUrl (getLocalizedPath path Lang.pt) = Lang.pt)
    ∧ (stripLeadingSlash path = "en" ∨ strStartsWith (stripLeadingSlash path) "en/" = true →
        getLangFromUrl (getLocalizedPath path Lang.pt) = Lang.en) := by
  refine ⟨?_, ?_, ?_⟩
  · by_cases h : stripLeadingSlash path = ""
    · have hen : getLangFromUrl "/en" = Lang.en := by decide
      simp [getLocalizedPath, h, hen]
    · simp only [getLocalizedPath, if_neg h]
      unfold getLangFromUrl
      rw [strStartsWith_en_append]
      simp
  · intro h1 h2
    show getLangFromUrl ("/" ++ stripLeadingSlash path) = Lang.pt
    rw [getLangFromUrl_slash]
    simp [h1, h2]
  · intro h
    show getLangFromUrl ("/" ++ stripLeadingSlash path) = Lang.en
    rw [getLangFromUrl_slash]
    rcases h with h | h
    · simp [h]
    · simp [h]

/-- Witness for C10: the pt round trip at `/blog` detects Portuguese, and
the degenerate path `/en/x` under pt localization detects English. -/
theorem getLangFromUrl_roundtrip_witness :
    getLangFromUrl (getLocalizedPath "/blog" Lang.pt) = Lang.pt
    ∧ getLangFromUrl (getLocalizedPath "/en/x" Lang.pt) = Lang.en :=
  ⟨(getLangFromUrl_roundtrip "/blog").2.1 (by decide) (by decide),
   (getLangFromUrl_roundtrip "/en/x").2.2 (Or.inr (by decide))⟩

end Blog
